import Mathlib

/-!
Shallow embedding of the caihanzi handwriting-practice application
(stroke-capture canvas, annotation renderer, practice session state
machine, retry/mastery ledger, and the Gemini service wrappers), with
theorems checking the natural-language specification against the code.

Conventions of the embedding:
* JavaScript numbers that only ever hold integers (scores, HSK levels,
  retry budgets, delays) are modelled as `Int`/`Nat`; coordinates,
  pressures, ink widths and the random draws of `Math.random()` are
  modelled as `ℚ` (the code performs only `+ * / max min floor` on
  them, which ℚ models exactly).
* `Record<string, number>` / `Record<number, T>` objects are modelled
  as association lists with insert-or-overwrite update; presence of a
  key is what the program observes.
* React `setX(prev => f prev)` updates compose sequentially on the
  latest state; a handler that reads a state variable captured in its
  closure reads the snapshot from the render that created it.  This
  distinction is modelled explicitly (see `markFailureWith` /
  `sentenceBatchUpdate`).
* Canvas 2D contexts are modelled as lists of draw commands; an
  exported image is the command list that produced it.
-/

namespace Caihanzi

/-- Point `{x, y}` recorded by the stroke capture surface
(`DrawingPoint` in `types.ts`). -/
structure DrawingPoint where
  x : ℚ
  y : ℚ
deriving DecidableEq, Repr

/-- Structure `EvaluationResult` from `types.ts`: `{isCorrect, score, feedback}`. -/
structure EvaluationResult where
  isCorrect : Bool
  score : Int
  feedback : String
deriving DecidableEq, Repr

/-- Structure `HanziData` from `types.ts`: `{char, pinyin, meaning}`. -/
structure HanziData where
  char : String
  pinyin : String
  meaning : String
deriving DecidableEq, Repr

/-- Structure `CustomPalette` from `types.ts`: `{id, name, chars}`. -/
structure CustomPalette where
  id : String
  name : String
  chars : List String
deriving DecidableEq, Repr

/-- Variant `PracticeSource` from `types.ts`: HSK level or custom palette. -/
inductive PracticeSource where
  | hsk (level : Int)
  | palette (palette : CustomPalette)
deriving DecidableEq, Repr

/-- Variant `PracticeScope` from `types.ts`: `'CHAR' | 'SENTENCE'`. -/
inductive PracticeScope where
  | char
  | sentence
deriving DecidableEq, Repr

/-- Membership test for the `masteredChars` record
(`!masteredChars[c]` in the code; stored levels are 1..6 or 99, never
falsy, so presence of the key is what the guard observes). -/
def masteredHas (m : List (String × Int)) (c : String) : Bool :=
  m.any (fun p => p.1 == c)

/-- Insert-or-overwrite update modelling the object spread
`{...prev, [char]: level}` applied to `masteredChars`. -/
def recordMastered (m : List (String × Int)) (c : String) (lvl : Int) :
    List (String × Int) :=
  if m.any (fun p => p.1 == c) then
    m.map (fun p => if p.1 == c then (c, lvl) else p)
  else m ++ [(c, lvl)]

/-- Insert-or-overwrite update modelling `next[index] = result` on the
`sentenceResults` record (`Record<number, EvaluationResult>`). -/
def setAssoc (m : List (Nat × EvaluationResult)) (i : Nat)
    (r : EvaluationResult) : List (Nat × EvaluationResult) :=
  if m.any (fun p => p.1 == i) then
    m.map (fun p => if p.1 == i then (i, r) else p)
  else m ++ [(i, r)]

/-- Lookup on the `sentenceResults` record (`sentenceResults[idx]`). -/
def getAssoc (m : List (Nat × EvaluationResult)) (i : Nat) :
    Option EvaluationResult :=
  (m.find? (fun p => p.1 == i)).map (fun p => p.2)

/-- The session state the retry/mastery bookkeeping acts on: the
`result`, `sentenceResults`, `masteredChars` and `retryQueue` React
state variables of `App`. -/
structure AppState where
  result : Option EvaluationResult
  sentenceResults : List (Nat × EvaluationResult)
  masteredChars : List (String × Int)
  retryQueue : List HanziData
deriving DecidableEq, Repr

/-- The empty session state (fresh user: no result, no mastery, empty
retry queue). -/
def emptyApp : AppState :=
  { result := none, sentenceResults := [], masteredChars := [],
    retryQueue := [] }

/-- Handler `markMastery` from `App`: writes the glyph into `masteredChars`
with the current source's level (99 for a custom palette) and filters
it out of the retry queue. -/
def markMastery (src : PracticeSource) (st : AppState) (char : String) :
    AppState :=
  { st with
    masteredChars :=
      recordMastered st.masteredChars char
        (match src with
         | .hsk level => level
         | .palette _ => 99)
    retryQueue := st.retryQueue.filter (fun c => c.char != char) }

/-- Handler `markFailure` from `App`, with the queue snapshot made explicit:
the `alreadyInQueue` guard reads the `retryQueue` value captured by
the handler's closure (`snapshot`), while the append
`setRetryQueue(prev => [...prev, charData])` acts on the latest
queue. -/
def markFailureWith (snapshot : List HanziData) (st : AppState)
    (charData : HanziData) : AppState :=
  if snapshot.any (fun c => c.char == charData.char) then st
  else { st with retryQueue := st.retryQueue ++ [charData] }

/-- The per-result ledger update of a single-character check
(`handleCheck`, single-char branch): pass (`isCorrect && score >= 80`)
runs `markMastery`, anything else runs `markFailure`.  In the
sequential single-check flow the closure snapshot is the current
queue. -/
def applyCheckResult (src : PracticeSource) (st : AppState)
    (charData : HanziData) (res : EvaluationResult) : AppState :=
  if res.isCorrect = true ∧ 80 ≤ res.score then
    markMastery src st charData.char
  else
    markFailureWith st.retryQueue st charData

/-- The batched sentence update of `handleCheck`: all awaited
sub-results are folded into state inside one `setSentenceResults`
updater; `markMastery`/the appends act on the evolving state while
every `markFailure` dedup guard consults the pre-batch `retryQueue`
closure snapshot. -/
def sentenceBatchUpdate (src : PracticeSource) (breakdown : List HanziData)
    (st : AppState) (results : List (Nat × EvaluationResult)) : AppState :=
  let snapshot := st.retryQueue
  results.foldl
    (fun s ir =>
      let s1 := { s with sentenceResults := setAssoc s.sentenceResults ir.1 ir.2 }
      match breakdown.get? ir.1 with
      | some charData =>
          if ir.2.isCorrect = true ∧ (80 : Int) ≤ ir.2.score then
            markMastery src s1 charData.char
          else
            markFailureWith snapshot s1 charData
      | none => s1)
    st

/-- Handler `handleAppealSubmit` from `App`: bails out if there is no stored
original result for the target; otherwise replaces the stored result
for the targeted item (single `result` or `sentenceResults[index]`)
with the adjudicated result, and only when that result passes removes
the glyph from the retry queue and runs `markMastery`. -/
def handleAppealSubmit (src : PracticeSource) (st : AppState)
    (char : String) (index : Option Nat) (newResult : EvaluationResult) :
    AppState :=
  let originalOk :=
    match index with
    | some i => (getAssoc st.sentenceResults i).isSome
    | none => st.result.isSome
  if originalOk = false then st
  else
    let st1 :=
      match index with
      | some i => { st with sentenceResults := setAssoc st.sentenceResults i newResult }
      | none => { st with result := some newResult }
    if newResult.isCorrect = true ∧ 80 ≤ newResult.score then
      markMastery src
        { st1 with retryQueue := st1.retryQueue.filter (fun c => c.char != char) }
        char
    else st1

/-- Queue membership test for a glyph
(`retryQueue.some(c => c.char === char)`). -/
def inQueueB (st : AppState) (c : String) : Bool :=
  st.retryQueue.any (fun x => x.char == c)

/-- The glyph is simultaneously present in the Mastery Record and the
Retry Queue. -/
def inBoth (st : AppState) (c : String) : Bool :=
  masteredHas st.masteredChars c && inQueueB st c

/-- Boolean form of the fixed pass threshold
(`result.isCorrect && result.score >= 80`). -/
def passB (r : EvaluationResult) : Bool :=
  r.isCorrect && decide ((80 : Int) ≤ r.score)

/-- A sequence of evaluation events for one glyph, each applied through
the sequential ledger update of `handleCheck`. -/
def applyResults (src : PracticeSource) (charData : HanziData)
    (st : AppState) (events : List EvaluationResult) : AppState :=
  events.foldl (fun s r => applyCheckResult src s charData r) st

/-- Number of retry-queue entries recorded for a glyph. -/
def retryEntriesFor (st : AppState) (c : String) : Nat :=
  (st.retryQueue.filter (fun x => x.char == c)).length

/-- Glyph 谢 ("thanks"): a character that can occur twice in one sentence
breakdown (e.g. 谢谢). -/
def xieData : HanziData := ⟨"谢", "xiè", "thanks"⟩

/-- A passing evaluation result. -/
def pass92 : EvaluationResult := ⟨true, 92, "Excellent"⟩

/-- A failing evaluation result. -/
def fail40 : EvaluationResult := ⟨false, 40, "Wrong stroke order"⟩

/-- Drawing commands issued to a 2D canvas context.  `dot` and
`segment` are the ink of the stroke capture surface, colored
`hsl(0, 85%, lightness%)`; `circle` and `numberLabel` are the
annotation markers (`outlined = true` is the `#ffffff`, 2px
`ctx.stroke()` outline applied after the fill). -/
inductive Cmd where
  | dot (center : DrawingPoint) (radius : ℚ) (lightness : ℚ)
  | segment (a b : DrawingPoint) (lineWidth : ℚ) (lightness : ℚ)
  | circle (center : DrawingPoint) (radius : ℚ) (fill : String)
      (outlined : Bool)
  | numberLabel (text : String) (pos : DrawingPoint) (fill : String)
deriving DecidableEq, Repr

/-- Lightness ramp `Math.min(70, 20 + strokeCount * 5)`: the lightness of the k-th
(0-indexed) stroke's ink color `hsl(0, 85%, L%)` in `startDrawing`. -/
def strokeLightness (k : Nat) : ℚ := min 70 (20 + (k : ℚ) * 5)

/-- The state of one `Canvas` component: the rendered ink (`bitmap`
models the canvas pixels as the draw ops that produced them), the
`isDrawing`/`hasContent`/`strokeCount` React state, the `lastPos`,
`lastWidth`, `strokesRef` and `currentStrokeRef` refs, the ink color
currently installed on the 2D context, and the `readOnly` prop. -/
structure CanvasState where
  bitmap : List Cmd
  isDrawing : Bool
  hasContent : Bool
  strokeCount : Nat
  lastPos : Option DrawingPoint
  lastWidth : ℚ
  inkLightness : ℚ
  strokes : List (List DrawingPoint)
  currentStroke : List DrawingPoint
  readOnly : Bool
deriving DecidableEq, Repr

/-- A freshly mounted canvas: empty bitmap, `lastWidth` ref initialised
to 6, no committed strokes.  `inkLightness` models the context's
stroke/fill style, which is only observed after `startDrawing` installs
a stroke color; it is initialised to 0 here. -/
def initialCanvas : CanvasState :=
  { bitmap := [], isDrawing := false, hasContent := false, strokeCount := 0,
    lastPos := none, lastWidth := 6, inkLightness := 0, strokes := [],
    currentStroke := [], readOnly := false }

/-- Handler `startDrawing` (pointer-down): ignored in read-only mode; otherwise
begins a stroke at `p`, computes the initial ink width
`max(3, pressure * 14)` (pressure defaults to 0.5 when the event
reports none), installs the stroke color
`hsl(0, 85%, min(70, 20 + strokeCount*5)%)`, fills a dot of radius
`width/2`, and increments the stroke count. -/
def startDrawing (st : CanvasState) (p : DrawingPoint)
    (pressure : Option ℚ) : CanvasState :=
  if st.readOnly then st
  else
    let initialWidth := max 3 (pressure.getD (1 / 2) * 14)
    let lightness := strokeLightness st.strokeCount
    { st with
      isDrawing := true
      lastPos := some p
      currentStroke := [p]
      lastWidth := initialWidth
      inkLightness := lightness
      bitmap := st.bitmap ++ [Cmd.dot p (initialWidth / 2) lightness]
      strokeCount := st.strokeCount + 1
      hasContent := true }

/-- Handler `draw` (pointer-move): ignored in read-only mode or when no stroke
is in progress; otherwise records the point, computes the target width
`max(3, pressure * 14)`, smooths it as
`lastWidth * 0.7 + targetWidth * 0.3`, and draws a segment from the
previous position in the stroke's installed color. -/
def draw (st : CanvasState) (p : DrawingPoint) (pressure : Option ℚ) :
    CanvasState :=
  if st.readOnly then st
  else
    match st.isDrawing, st.lastPos with
    | true, some prev =>
        let targetWidth := max 3 (pressure.getD (1 / 2) * 14)
        let smoothedWidth := st.lastWidth * (7 / 10) + targetWidth * (3 / 10)
        { st with
          currentStroke := st.currentStroke ++ [p]
          lastWidth := smoothedWidth
          bitmap := st.bitmap ++ [Cmd.segment prev p smoothedWidth st.inkLightness]
          lastPos := some p }
    | _, _ => st

/-- Handler `stopDrawing` (pointer-up/leave): ignored in read-only mode;
commits the accumulated in-progress stroke (if non-empty) to the
stroke sequence and resets the in-progress refs. -/
def stopDrawing (st : CanvasState) : CanvasState :=
  if st.readOnly then st
  else
    let st1 :=
      if st.isDrawing ∧ 0 < st.currentStroke.length then
        { st with strokes := st.strokes ++ [st.currentStroke] }
      else st
    { st1 with isDrawing := false, lastPos := none, currentStroke := [] }

/-- The `clear` handle: wipes the bitmap, content flag, stroke count
and stroke data. -/
def clearCanvas (st : CanvasState) : CanvasState :=
  { st with
    bitmap := []
    hasContent := false
    strokeCount := 0
    strokes := []
    currentStroke := [] }

/-- The `isEmpty` handle (`!hasContent`). -/
def isEmptyHandle (st : CanvasState) : Bool := !st.hasContent

/-- The marker draw-ops `getAnnotatedImageData` emits for one stroke:
nothing for a zero-point stroke; a radius-12 filled `#16a34a` circle at
`stroke[0]` carrying the 1-based ordinal in `#ffffff`; and, when the
stroke has more than one point, a radius-6 filled `#dc2626` circle at
`stroke[stroke.length - 1]`. -/
def annotateStroke (index : Nat) (stroke : List DrawingPoint) : List Cmd :=
  if stroke.length = 0 then []
  else
    let start := stroke.getD 0 ⟨0, 0⟩
    let stop := stroke.getD (stroke.length - 1) ⟨0, 0⟩
    [Cmd.circle start 12 "#16a34a" true,
     Cmd.numberLabel (Nat.repr (index + 1)) start "#ffffff"]
    ++ (if 1 < stroke.length then [Cmd.circle stop 6 "#dc2626" true] else [])

/-- Export `getAnnotatedImageData`: creates an offscreen canvas, draws the
source canvas's ink into it (`ctx.drawImage`), then overlays the
markers for each committed stroke in stroke order (`forEach`), so later
markers paint over earlier ones.  Only the offscreen context is written
to; the returned pair is the exported image and the (unchanged) source
canvas state. -/
def getAnnotatedImageData (st : CanvasState) : List Cmd × CanvasState :=
  (st.bitmap ++ (st.strokes.enum.map (fun p => annotateStroke p.1 p.2)).flatten,
   st)

/-- Spec-side marker description (§4.2 of the spec), for comparison
with `annotateStroke`: for every stroke with at least one point, a
filled circular marker of radius 12 centered at the stroke's first
point containing the stroke's 1-based ordinal number in a contrasting
color; only when the stroke has more than one point, a smaller filled
radius-6 marker at the stroke's last point, with no number; zero-point
strokes produce no markers. -/
def specStrokeMarkers (index : Nat) (stroke : List DrawingPoint) :
    List Cmd :=
  match stroke with
  | [] => []
  | p :: rest =>
      [Cmd.circle p 12 "#16a34a" true,
       Cmd.numberLabel (Nat.repr (index + 1)) p "#ffffff"]
      ++ (match rest with
          | [] => []
          | _ :: _ =>
              [Cmd.circle ((p :: rest).getLast (List.cons_ne_nil p rest)) 6
                "#dc2626" true])

/-- Prop `canCheck` passed to `Controls` by the sentence-capable `App`:
`!isLoading && !isChecking && (!scope || (scope === 'CHAR' && (!result
|| result.score < 80)) || (scope === 'SENTENCE' &&
!isSentenceComplete))`.  `scope` is always one of the two non-empty
strings, so the `!scope` disjunct is the constant `false`. -/
def canCheck (isLoading isChecking : Bool) (scope : PracticeScope)
    (result : Option EvaluationResult) (isSentenceComplete : Bool) : Bool :=
  !isLoading && !isChecking &&
    (false
     || (scope == PracticeScope.char &&
         (match result with
          | none => true
          | some r => decide (r.score < 80)))
     || (scope == PracticeScope.sentence && !isSentenceComplete))

/-- Request to `validateHandwriting`: annotated image, target glyph, and
observed stroke count. -/
structure GradingCall where
  image : List Cmd
  targetChar : String
  strokeCount : Nat
deriving DecidableEq, Repr

/-- The single-character branch of `handleCheck`: exports the annotated
image and stroke count from the canvas and submits them to
`validateHandwriting` — with no emptiness guard — then stores the
evaluation and applies the ledger update.  Returns the new session
state together with the grading calls issued. -/
def handleCheckChar (src : PracticeSource) (st : AppState)
    (canvas : CanvasState) (currentHanzi : HanziData)
    (response : EvaluationResult) : AppState × List GradingCall :=
  let annotatedImageData := (getAnnotatedImageData canvas).fst
  let call : GradingCall :=
    ⟨annotatedImageData, currentHanzi.char, canvas.strokeCount⟩
  ({ applyCheckResult src st currentHanzi response with
      result := some response },
   [call])

/-- A canvas on which `k` strokes have already been begun. -/
def canvasAt (k : Nat) : CanvasState := { initialCanvas with strokeCount := k }

/-- A canvas holding one committed single-point stroke. -/
def canvasA : CanvasState :=
  { initialCanvas with
    bitmap := [Cmd.dot ⟨10, 20⟩ 3 20]
    strokes := [[⟨10, 20⟩]]
    strokeCount := 1
    hasContent := true }

/-- Same ink and strokes as `canvasA`, different transient ref state. -/
def canvasB : CanvasState := { canvasA with lastWidth := 9, inkLightness := 20 }

/-- The retry-pick decision of `loadContent`/`loadCharacter`:
`retryQueue.length > 0 && (Math.random() < 0.4 || retryQueue.length >
5)`, with the `Math.random()` draw passed explicitly. -/
def shouldPickFromRetry (queue : List HanziData) (r : ℚ) : Bool :=
  decide (0 < queue.length) && (decide (r < 2 / 5) || decide (5 < queue.length))

/-- The pool used by the custom-palette branch: `unmastered.length > 0
? unmastered : chars` where `unmastered = chars.filter(c =>
!masteredChars[c])`. -/
def palettePool (mastered : List (String × Int)) (chars : List String) :
    List String :=
  let unmastered := chars.filter (fun c => !(masteredHas mastered c))
  if 0 < unmastered.length then unmastered else chars

/-- Outcome of the single-character content-selection step. -/
inductive LoadChoice where
  | retryHead (charData : HanziData)
  | fetchHsk (level : Int)
  | fetchPaletteChar (c : String)
  | paletteEmpty
deriving DecidableEq, Repr

/-- The single-character branch of `loadContent` (and the identical
`loadCharacter` of the older `App`): select the head of the retry
queue when `shouldPickFromRetry`; otherwise fetch fresh content — a
random character of the level for an HSK source, or, for a palette
source, `pool[Math.floor(random() * pool.length)]` with `pool`
preferring unmastered glyphs (an empty palette aborts with an alert).
`r1` and `r2` are the two `Math.random()` draws; the `getD` default is
unreachable for `0 ≤ r2 < 1`. -/
def loadContentChar (source : PracticeSource)
    (mastered : List (String × Int)) (queue : List HanziData)
    (r1 r2 : ℚ) : LoadChoice :=
  match queue, shouldPickFromRetry queue r1 with
  | nextChar :: _, true => LoadChoice.retryHead nextChar
  | _, _ =>
      match source with
      | .hsk level => LoadChoice.fetchHsk level
      | .palette p =>
          if p.chars.length = 0 then LoadChoice.paletteEmpty
          else
            let pool := palettePool mastered p.chars
            LoadChoice.fetchPaletteChar
              (pool.getD (⌊r2 * (pool.length : ℚ)⌋).toNat "")

/-- The failure-object shape inspected by `retryOperation`
(`error.status`, `error.code`, `error.message`, `error.error.code`,
`error.error.status`). -/
structure ApiError where
  status : Option Int
  code : Option Int
  message : String
  errorCode : Option Int
  errorStatus : Option String
deriving DecidableEq, Repr

/-- Substring occurrence on character lists (used to model
`message.includes(...)`). -/
def containsSub : List Char → List Char → Bool
  | [], sub => sub.isEmpty
  | c :: rest, sub => sub.isPrefixOf (c :: rest) || containsSub rest sub

/-- Test `message.includes(sub)`. -/
def strContains (s sub : String) : Bool := containsSub s.data sub.data

/-- The rate-limit test of `retryOperation`: status/code 429, a message
mentioning 429 or quota, or a nested `RESOURCE_EXHAUSTED`. -/
def isRateLimit (e : ApiError) : Bool :=
  e.status == some 429 || e.code == some 429 ||
  strContains e.message "429" || strContains e.message "quota" ||
  e.errorCode == some 429 || e.errorStatus == some "RESOURCE_EXHAUSTED"

/-- The overload test of `retryOperation`: HTTP 503. -/
def isServerOverload (e : ApiError) : Bool :=
  e.status == some 503 || e.code == some 503 || e.errorCode == some 503

/-- Wrapper `retryOperation(operation, retries = 3, delay = 1000)`: runs the
operation (the attempt number is made explicit so distinct attempts can
fail differently), retries only rate-limit/overload failures while the
retry budget lasts, waiting `delay` before each retry and doubling it;
any other failure, or an exhausted budget, propagates.  Returns the
final outcome together with the list of waits performed. -/
def retryOperation {α : Type} (op : Nat → Except ApiError α)
    (attempt : Nat) (retries : Nat) (delay : Nat) :
    Except ApiError α × List Nat :=
  match op attempt with
  | .ok a => (.ok a, [])
  | .error e =>
      match retries with
      | 0 => (.error e, [])
      | retriesLeft + 1 =>
          if isRateLimit e || isServerOverload e then
            let tail := retryOperation op (attempt + 1) retriesLeft (delay * 2)
            (tail.fst, delay :: tail.snd)
          else (.error e, [])

/-- The fixed fallback grading result of `validateHandwriting`. -/
def quotaFallback : EvaluationResult :=
  ⟨false, 0, "API Quota Exceeded. Please wait a moment or try again later."⟩

/-- Control flow of `validateHandwriting` around the model call: the
attempt outcome (parsed evaluation, or `none` for an empty response
text) goes through `retryOperation` with a budget of 3 retries starting
at 1000ms; an error escaping `retryOperation`, or an empty response,
is caught and replaced by the fixed zero-score fallback, so the caller
always receives a plain result and no failure escapes. -/
def validateHandwriting
    (op : Nat → Except ApiError (Option EvaluationResult)) :
    EvaluationResult :=
  match (retryOperation op 0 3 1000).fst with
  | .ok (some r) => r
  | .ok none => quotaFallback
  | .error _ => quotaFallback

/-- The `OFFLINE_DATA` table with the `|| OFFLINE_DATA[HSK1]` default
for levels outside 1..6. -/
def offlineData (level : Int) : List HanziData :=
  if level = 1 then
    [⟨"我", "wǒ", "I; me"⟩, ⟨"你", "nǐ", "you"⟩, ⟨"他", "tā", "he; him"⟩,
     ⟨"好", "hǎo", "good"⟩, ⟨"的", "de", "possessive particle"⟩,
     ⟨"是", "shì", "to be"⟩, ⟨"不", "bù", "no; not"⟩, ⟨"人", "rén", "person"⟩,
     ⟨"大", "dà", "big"⟩, ⟨"有", "yǒu", "have"⟩]
  else if level = 2 then
    [⟨"红", "hóng", "red"⟩, ⟨"吃", "chī", "eat"⟩, ⟨"书", "shū", "book"⟩,
     ⟨"水", "shuǐ", "water"⟩, ⟨"手", "shǒu", "hand"⟩]
  else if level = 3 then
    [⟨"爱", "ài", "love"⟩, ⟨"心", "xīn", "heart"⟩, ⟨"做", "zuò", "do"⟩,
     ⟨"想", "xiǎng", "think/want"⟩]
  else if level = 4 then
    [⟨"网", "wǎng", "network/net"⟩, ⟨"梦", "mèng", "dream"⟩]
  else if level = 5 then
    [⟨"龙", "lóng", "dragon"⟩, ⟨"魂", "hún", "soul"⟩]
  else if level = 6 then
    [⟨"疆", "jiāng", "border/frontier"⟩, ⟨"巅", "diān", "peak/summit"⟩]
  else
    [⟨"我", "wǒ", "I; me"⟩, ⟨"你", "nǐ", "you"⟩, ⟨"他", "tā", "he; him"⟩,
     ⟨"好", "hǎo", "good"⟩, ⟨"的", "de", "possessive particle"⟩,
     ⟨"是", "shì", "to be"⟩, ⟨"不", "bù", "no; not"⟩, ⟨"人", "rén", "person"⟩,
     ⟨"大", "dà", "big"⟩, ⟨"有", "yǒu", "have"⟩]

/-- Fallback `getRandomOfflineChar`: uniform pick from the offline table
(`list[Math.floor(Math.random() * list.length)]`); the `getD` default
is unreachable for `0 ≤ r < 1`. -/
def getRandomOfflineChar (level : Int) (r : ℚ) : HanziData :=
  let list := offlineData level
  list.getD (⌊r * (list.length : ℚ)⌋).toNat ⟨"我", "wǒ", "I; me"⟩

/-- Control flow of `fetchRandomCharacter`: the parsed character from
the retried model call, else (error, or empty response) the offline
fallback pick. -/
def fetchRandomCharacter (op : Nat → Except ApiError (Option HanziData))
    (level : Int) (r : ℚ) : HanziData :=
  match (retryOperation op 0 3 1000).fst with
  | .ok (some d) => d
  | .ok none => getRandomOfflineChar level r
  | .error _ => getRandomOfflineChar level r

/-- A permanently failing operation: every attempt reports HTTP 503. -/
def opAlways503 : Nat → Except ApiError (Option EvaluationResult) :=
  fun _ => .error ⟨some 503, none, "Service Unavailable", none, none⟩

/-- C1: for the single-character check, each sentence sub-item result,
and an adjudicated appeal result, the glyph is recorded in the Mastery
Record iff the result has `isCorrect = true` and `score ≥ 80`; a
failing result leaves `masteredChars` unchanged, so `score = 80` with
`isCorrect = false`, and `score = 79` with `isCorrect = true`, record
no mastery. -/
theorem c1_mastery_threshold (src : PracticeSource) (st : AppState)
    (charData : HanziData) (res : EvaluationResult) :
    ((res.isCorrect = true ∧ 80 ≤ res.score) →
      masteredHas (applyCheckResult src st charData res).masteredChars
        charData.char = true)
    ∧ (¬(res.isCorrect = true ∧ 80 ≤ res.score) →
      (applyCheckResult src st charData res).masteredChars = st.masteredChars)
    ∧ (masteredHas st.masteredChars charData.char = false →
      (masteredHas (applyCheckResult src st charData res).masteredChars
          charData.char = true ↔ (res.isCorrect = true ∧ 80 ≤ res.score)))
    ∧ (masteredHas st.masteredChars charData.char = false →
      (masteredHas
          (sentenceBatchUpdate src [charData] st [(0, res)]).masteredChars
          charData.char = true ↔ (res.isCorrect = true ∧ 80 ≤ res.score)))
    ∧ (∀ (index : Option Nat),
      masteredHas st.masteredChars charData.char = false →
      (match index with
       | some i => (getAssoc st.sentenceResults i).isSome
       | none => st.result.isSome) = true →
      (masteredHas
          (handleAppealSubmit src st charData.char index res).masteredChars
          charData.char = true ↔ (res.isCorrect = true ∧ 80 ≤ res.score))) := by
  have hmem : ∀ (m : List (String × Int)) (c : String) (lvl : Int),
      masteredHas (recordMastered m c lvl) c = true := by
    intro m c lvl
    unfold masteredHas recordMastered
    by_cases h : m.any (fun p => p.1 == c) = true
    · rw [if_pos h, List.any_eq_true]
      rw [List.any_eq_true] at h
      obtain ⟨p, hp, hpc⟩ := h
      refine ⟨(c, lvl), List.mem_map.mpr ⟨p, hp, ?_⟩, by simp⟩
      simp [hpc]
    · rw [if_neg h, List.any_append]
      simp
  have hmm : ∀ (st' : AppState),
      masteredHas (markMastery src st' charData.char).masteredChars
        charData.char = true := by
    intro st'
    unfold markMastery
    exact hmem _ _ _
  have hmf : ∀ (snap : List HanziData) (st' : AppState),
      (markFailureWith snap st' charData).masteredChars = st'.masteredChars := by
    intro snap st'
    unfold markFailureWith
    split <;> rfl
  refine ⟨?_, ?_, ?_, ?_, ?_⟩
  · intro hpass
    unfold applyCheckResult
    rw [if_pos hpass]
    exact hmm st
  · intro hfail
    unfold applyCheckResult
    rw [if_neg hfail]
    exact hmf _ _
  · intro hnot
    constructor
    · intro hafter
      by_contra hfail
      unfold applyCheckResult at hafter
      rw [if_neg hfail, hmf] at hafter
      rw [hnot] at hafter
      exact Bool.false_ne_true hafter
    · intro hpass
      unfold applyCheckResult
      rw [if_pos hpass]
      exact hmm st
  · intro hnot
    have hbatch : sentenceBatchUpdate src [charData] st [(0, res)] =
        (if res.isCorrect = true ∧ (80 : Int) ≤ res.score then
           markMastery src
             { st with sentenceResults := setAssoc st.sentenceResults 0 res }
             charData.char
         else
           markFailureWith st.retryQueue
             { st with sentenceResults := setAssoc st.sentenceResults 0 res }
             charData) := by
      simp only [sentenceBatchUpdate, List.foldl_cons, List.foldl_nil]
      rfl
    rw [hbatch]
    constructor
    · intro hafter
      by_contra hfail
      rw [if_neg hfail, hmf] at hafter
      rw [hnot] at hafter
      exact Bool.false_ne_true hafter
    · intro hpass
      rw [if_pos hpass]
      exact hmm _
  · intro index hnot hok
    unfold handleAppealSubmit
    rw [hok]
    simp only [Bool.true_eq_false, if_false]
    constructor
    · intro hafter
      by_contra hfail
      rw [if_neg hfail] at hafter
      cases index <;> simp only [] at hafter <;> rw [hnot] at hafter <;>
        exact Bool.false_ne_true hafter
    · intro hpass
      rw [if_pos hpass]
      exact hmm _

/-- Witness for C1 at a concrete input: a result with `score = 80` but
`isCorrect = false` records no mastery for 我. -/
theorem c1_mastery_threshold_witness :
    masteredHas
      (applyCheckResult (PracticeSource.hsk 1) emptyApp
        ⟨"我", "wǒ", "I; me"⟩ ⟨false, 80, "shape off"⟩).masteredChars
      "我" = false := by
  have h := (c1_mastery_threshold (PracticeSource.hsk 1) emptyApp
    ⟨"我", "wǒ", "I; me"⟩ ⟨false, 80, "shape off"⟩).2.1 (by decide)
  rw [h]
  decide

theorem passB_iff (r : EvaluationResult) :
    passB r = true ↔ (r.isCorrect = true ∧ (80 : Int) ≤ r.score) := by
  simp [passB]

theorem applyCheckResult_of_pass (src : PracticeSource) (st : AppState)
    (cd : HanziData) (r : EvaluationResult) (h : passB r = true) :
    applyCheckResult src st cd r = markMastery src st cd.char := by
  unfold applyCheckResult
  rw [if_pos ((passB_iff r).mp h)]

theorem applyCheckResult_of_fail (src : PracticeSource) (st : AppState)
    (cd : HanziData) (r : EvaluationResult) (h : passB r = false) :
    applyCheckResult src st cd r = markFailureWith st.retryQueue st cd := by
  unfold applyCheckResult
  rw [if_neg]
  intro hc
  rw [(passB_iff r).mpr hc] at h
  simp at h

theorem masteredHas_recordMastered (m : List (String × Int)) (c : String)
    (lvl : Int) : masteredHas (recordMastered m c lvl) c = true := by
  unfold masteredHas recordMastered
  by_cases h : m.any (fun p => p.1 == c) = true
  · rw [if_pos h, List.any_eq_true]
    rw [List.any_eq_true] at h
    obtain ⟨p, hp, hpc⟩ := h
    refine ⟨(c, lvl), List.mem_map.mpr ⟨p, hp, ?_⟩, by simp⟩
    simp [hpc]
  · rw [if_neg h, List.any_append]
    simp

theorem masteredHas_markMastery (src : PracticeSource) (st : AppState)
    (c : String) :
    masteredHas (markMastery src st c).masteredChars c = true :=
  masteredHas_recordMastered _ _ _

theorem masteredChars_markFailureWith (snap : List HanziData)
    (st : AppState) (cd : HanziData) :
    (markFailureWith snap st cd).masteredChars = st.masteredChars := by
  unfold markFailureWith
  split <;> rfl

theorem inQueueB_markMastery (src : PracticeSource) (st : AppState)
    (c : String) : inQueueB (markMastery src st c) c = false := by
  simp only [inQueueB, markMastery]
  rw [List.any_eq_false]
  intro x hx
  rw [List.mem_filter] at hx
  simpa using hx.2

theorem inQueueB_markFailure_self (st : AppState) (cd : HanziData) :
    inQueueB (markFailureWith st.retryQueue st cd) cd.char = true := by
  by_cases h : st.retryQueue.any (fun x => x.char == cd.char) = true
  · unfold markFailureWith
    rw [if_pos h]
    exact h
  · unfold markFailureWith
    rw [if_neg h]
    simp [inQueueB, List.any_append]

theorem masteredHas_applyResults (src : PracticeSource) (cd : HanziData) :
    ∀ (events : List EvaluationResult) (st : AppState),
    masteredHas (applyResults src cd st events).masteredChars cd.char
      = (masteredHas st.masteredChars cd.char || events.any passB) := by
  intro events
  induction events with
  | nil => intro st; simp [applyResults]
  | cons r rest ih =>
    intro st
    have hstep : applyResults src cd st (r :: rest)
        = applyResults src cd (applyCheckResult src st cd r) rest := rfl
    rw [hstep, ih]
    by_cases hp : passB r = true
    · rw [applyCheckResult_of_pass src st cd r hp,
        masteredHas_markMastery src st cd.char]
      simp [List.any_cons, hp]
    · have hp' : passB r = false := by
        revert hp; cases passB r <;> simp
      rw [applyCheckResult_of_fail src st cd r hp',
        masteredChars_markFailureWith]
      simp [List.any_cons, hp']

theorem inQueueB_applyResults (src : PracticeSource) (cd : HanziData) :
    ∀ (events : List EvaluationResult) (st : AppState),
    inQueueB (applyResults src cd st events) cd.char
      = (match events.getLast? with
         | none => inQueueB st cd.char
         | some l => !passB l) := by
  intro events
  induction events with
  | nil => intro st; rfl
  | cons r rest ih =>
    intro st
    have hstep : applyResults src cd st (r :: rest)
        = applyResults src cd (applyCheckResult src st cd r) rest := rfl
    rw [hstep, ih]
    cases rest with
    | nil =>
      simp only [List.getLast?_singleton]
      by_cases hp : passB r = true
      · rw [applyCheckResult_of_pass src st cd r hp,
          inQueueB_markMastery src st cd.char, hp]
        rfl
      · have hp' : passB r = false := by
          revert hp; cases passB r <;> simp
        rw [applyCheckResult_of_fail src st cd r hp',
          inQueueB_markFailure_self st cd, hp']
        rfl
    | cons r2 rest2 =>
      rw [List.getLast?_cons_cons]
      cases hgl : (r2 :: rest2).getLast? with
      | none =>
        have h2 : (r2 :: rest2).getLast?.isSome = true :=
          List.getLast?_isSome.mpr (by simp)
        rw [hgl] at h2
        exact absurd h2 (by simp)
      | some l => rfl

/-- C2 counterexample: a pass followed by a fail for the same glyph
(from a fresh state) leaves the glyph in both the Mastery Record and
the Retry Queue, refuting the claimed disjointness invariant. -/
theorem c2_disjointness_counterexample :
    inBoth
      (applyResults (PracticeSource.hsk 1) xieData emptyApp [pass92, fail40])
      "谢" = true := by
  decide

/-- C2 amended: mastering a glyph removes it from the retry queue, so a
pass never leaves the glyph in both; but recording a failure does not
remove an existing mastery record, so after a sequence of pass/fail
events (from a fresh state) the glyph is in both the Mastery Record and
the Retry Queue exactly when some event passed and the final event
failed. -/
theorem c2_disjointness_amended (src : PracticeSource)
    (charData : HanziData) (events : List EvaluationResult) :
    (inBoth (applyResults src charData emptyApp events) charData.char = true
      ↔ ((∃ r ∈ events, passB r = true) ∧
         (∃ l, events.getLast? = some l ∧ passB l = false)))
    ∧ (∀ (st : AppState) (r : EvaluationResult), passB r = true →
        inQueueB (applyCheckResult src st charData r) charData.char = false) := by
  constructor
  · have hunfold : inBoth (applyResults src charData emptyApp events)
        charData.char
        = (masteredHas (applyResults src charData emptyApp events).masteredChars
            charData.char
          && inQueueB (applyResults src charData emptyApp events)
              charData.char) := rfl
    rw [hunfold, Bool.and_eq_true, masteredHas_applyResults,
      inQueueB_applyResults]
    have hempty : masteredHas emptyApp.masteredChars charData.char = false :=
      rfl
    have hemptyq : inQueueB emptyApp charData.char = false := rfl
    rw [hempty, Bool.false_or]
    cases hgl : events.getLast? with
    | none =>
      rw [hemptyq]
      simp
    | some l =>
      have hmatch : (match (some l : Option EvaluationResult) with
          | none => inQueueB emptyApp charData.char
          | some l => !passB l) = !passB l := rfl
      rw [hmatch, List.any_eq_true]
      constructor
      · rintro ⟨hany, hlast⟩
        refine ⟨hany, l, rfl, ?_⟩
        revert hlast
        cases passB l <;> simp
      · rintro ⟨hany, l', hl', hfail⟩
        injection hl' with hl'
        subst hl'
        exact ⟨hany, by rw [hfail]; rfl⟩
  · intro st r hp
    rw [applyCheckResult_of_pass src st charData r hp]
    exact inQueueB_markMastery src st charData.char

/-- Witness for C2 amended at a concrete input: after a pass for 谢 the
glyph is not in the retry queue. -/
theorem c2_disjointness_amended_witness :
    inQueueB (applyCheckResult (PracticeSource.hsk 1) emptyApp xieData pass92)
      "谢" = false :=
  (c2_disjointness_amended (PracticeSource.hsk 1) xieData []).2 emptyApp pass92
    (by decide)

/-- C3: two failures for the same glyph applied from the same sentence
batch-check update append two retry-queue entries (the `markFailure`
dedup guard consults the stale pre-batch queue snapshot), while the
same two failures applied through sequential single-character checks
correctly leave exactly one entry. -/
theorem c3_batch_duplicate_retry :
    retryEntriesFor
      (sentenceBatchUpdate (PracticeSource.hsk 2) [xieData, xieData] emptyApp
        [(0, fail40), (1, fail40)]) "谢" = 2
    ∧ retryEntriesFor
        (applyCheckResult (PracticeSource.hsk 2)
          (applyCheckResult (PracticeSource.hsk 2) emptyApp xieData fail40)
          xieData fail40) "谢" = 1 := by
  constructor
  · decide
  · decide

theorem annotateStroke_eq_specStrokeMarkers (i : Nat)
    (s : List DrawingPoint) : annotateStroke i s = specStrokeMarkers i s := by
  cases s with
  | nil => rfl
  | cons p rest =>
    cases rest with
    | nil => rfl
    | cons q rest2 =>
      have hlast : (p :: q :: rest2).getD ((p :: q :: rest2).length - 1)
            ⟨0, 0⟩
          = (p :: q :: rest2).getLast (List.cons_ne_nil p (q :: rest2)) := by
        rw [List.getLast_eq_getElem]
        exact List.getD_eq_getElem _ _ (by simp)
      unfold annotateStroke specStrokeMarkers
      dsimp only
      rw [hlast, if_neg (by simp), if_pos (by simp)]
      simp [List.getD_cons_zero]

/-- C4: the annotated export draws, for each stroke with at least one
point, a filled radius-12 circle at the stroke's first point carrying
its 1-based ordinal number in a contrasting color, plus — only when the
stroke has more than one point — a filled radius-6 circle at its last
point with no number; zero-point strokes contribute no markers, and the
markers are emitted in stroke order over the ink, so later markers
paint over earlier ones. -/
theorem c4_annotation_markers (st : CanvasState) :
    (getAnnotatedImageData st).fst
      = st.bitmap
        ++ (st.strokes.enum.map
              (fun p => specStrokeMarkers p.1 p.2)).flatten := by
  unfold getAnnotatedImageData
  simp only [annotateStroke_eq_specStrokeMarkers]

/-- C5: with the sentence-capable `App`, a single-character check on an
empty drawing surface is NOT rejected: the `canCheck` prop ignores
canvas content (the older single-char-only `App` had `canvasHasContent
&&` here), and `handleCheck`'s single-character branch has no emptiness
guard, so one `validateHandwriting` call is issued for the empty canvas
and the session state is changed (the glyph is appended to the retry
queue on the resulting failure). -/
theorem c5_empty_canvas_not_rejected :
    isEmptyHandle initialCanvas = true
    ∧ canCheck false false PracticeScope.char none false = true
    ∧ (handleCheckChar (PracticeSource.hsk 1) emptyApp initialCanvas
        ⟨"我", "wǒ", "I; me"⟩ fail40).snd.length = 1
    ∧ (handleCheckChar (PracticeSource.hsk 1) emptyApp initialCanvas
        ⟨"我", "wǒ", "I; me"⟩ fail40).fst.retryQueue.length = 1 := by
  refine ⟨rfl, rfl, rfl, ?_⟩
  decide

/-- C6: the export `getAnnotatedImageData` leaves the canvas state — in
particular the source bitmap and the stored stroke sequence —
unchanged, a second call produces the identical command list (same
centers, ordinals, radii and colors), and the output depends only on
the ink bitmap and the stroke sequence. -/
theorem c6_annotation_deterministic (st st' : CanvasState) :
    ((getAnnotatedImageData st).snd = st)
    ∧ ((getAnnotatedImageData ((getAnnotatedImageData st).snd)).fst
        = (getAnnotatedImageData st).fst)
    ∧ (st.bitmap = st'.bitmap → st.strokes = st'.strokes →
        (getAnnotatedImageData st).fst = (getAnnotatedImageData st').fst) := by
  refine ⟨rfl, rfl, ?_⟩
  intro h1 h2
  unfold getAnnotatedImageData
  rw [h1, h2]

/-- Witness for C6 at concrete inputs: two canvases with the same ink
and strokes but different transient ref state export identical
annotated images. -/
theorem c6_annotation_deterministic_witness :
    (getAnnotatedImageData canvasA).fst = (getAnnotatedImageData canvasB).fst :=
  (c6_annotation_deterministic canvasA canvasB).2.2 rfl rfl

/-- C9 counterexample: strokes 10 and 11 (0-indexed) are both rendered
at the capped lightness 70%, so an earlier stroke is not always darker
than a later one. -/
theorem c9_lightness_cap_counterexample :
    (startDrawing (canvasAt 10) ⟨0, 0⟩ none).inkLightness
        = (startDrawing (canvasAt 11) ⟨0, 0⟩ none).inkLightness
    ∧ (startDrawing (canvasAt 10) ⟨0, 0⟩ none).inkLightness = 70 := by
  have h1 : strokeLightness 10 = 70 := by
    unfold strokeLightness
    rw [show (20 : ℚ) + (10 : ℕ) * 5 = 70 by norm_num, min_self]
  have h2 : strokeLightness 11 = 70 := by
    unfold strokeLightness
    rw [min_eq_left (by norm_num)]
  constructor
  · show strokeLightness 10 = strokeLightness 11
    rw [h1, h2]
  · exact h1

/-- C9 amended: the handler `startDrawing` sets the initial ink width to
`max(3, pressure * 14)` with pressure defaulting to 0.5 when absent;
each `draw` smooths the width as `0.7 * prev + 0.3 * target` with
`target = max(3, pressure * 14)`; stroke k (0-indexed) is rendered at
the fixed hue with lightness `min(70%, 20% + 5%*k)`, which is
nondecreasing in k and strictly increasing up to the 70% cap (k ≤ 10),
so an earlier stroke is never lighter than a later one and strictly
darker until the cap. -/
theorem c9_stroke_width_and_color (st : CanvasState) (p : DrawingPoint)
    (pr : Option ℚ) (hro : st.readOnly = false) :
    ((startDrawing st p pr).lastWidth = max 3 (pr.getD (1 / 2) * 14))
    ∧ ((startDrawing st p none).lastWidth = max 3 ((1 / 2 : ℚ) * 14))
    ∧ (∀ prev : DrawingPoint, st.isDrawing = true → st.lastPos = some prev →
        (draw st p pr).lastWidth
          = st.lastWidth * (7 / 10) + max 3 (pr.getD (1 / 2) * 14) * (3 / 10))
    ∧ ((startDrawing st p pr).inkLightness = strokeLightness st.strokeCount)
    ∧ (∀ j k : Nat, j ≤ k → strokeLightness j ≤ strokeLightness k)
    ∧ (∀ j k : Nat, j < k → k ≤ 10 →
        strokeLightness j < strokeLightness k) := by
  refine ⟨?_, ?_, ?_, ?_, ?_, ?_⟩
  · unfold startDrawing
    rw [hro]
    rfl
  · unfold startDrawing
    rw [hro]
    rfl
  · intro prev hd hlp
    unfold draw
    rw [hro, hd, hlp]
    rfl
  · unfold startDrawing
    rw [hro]
    rfl
  · intro j k hjk
    unfold strokeLightness
    refine min_le_min le_rfl ?_
    have : (j : ℚ) ≤ (k : ℚ) := by exact_mod_cast hjk
    nlinarith
  · intro j k hjk hk10
    unfold strokeLightness
    have hj : (j : ℚ) < (k : ℚ) := by exact_mod_cast hjk
    have hkq : (k : ℚ) ≤ 10 := by exact_mod_cast hk10
    rw [min_eq_right (by nlinarith), min_eq_right (by nlinarith)]
    nlinarith

/-- Witness for C9 amended at a concrete input: full pressure 1.0 gives
an initial ink width of 14. -/
theorem c9_stroke_width_and_color_witness :
    (startDrawing initialCanvas ⟨100, 120⟩ (some 1)).lastWidth = 14 := by
  have h := (c9_stroke_width_and_color initialCanvas ⟨100, 120⟩ (some 1)
    rfl).1
  rw [h]
  simp only [Option.getD_some]
  rw [max_eq_right (by norm_num : (3 : ℚ) ≤ 1 * 14)]
  norm_num

theorem getAssoc_map_overwrite (i : Nat) (r : EvaluationResult) :
    ∀ (m : List (Nat × EvaluationResult)),
    m.any (fun p => p.1 == i) = true →
    getAssoc (m.map (fun p => if p.1 == i then (i, r) else p)) i = some r := by
  intro m
  induction m with
  | nil => intro h; simp at h
  | cons p rest ih =>
    intro h
    rw [List.map_cons]
    by_cases hp : (p.1 == i) = true
    · rw [if_pos hp]
      unfold getAssoc
      rw [List.find?_cons_of_pos _ (by simp)]
      rfl
    · rw [if_neg hp]
      have h' : rest.any (fun p => p.1 == i) = true := by
        rw [List.any_cons] at h
        simp only [hp, Bool.false_or] at h
        exact h
      have hr := ih h'
      unfold getAssoc at hr ⊢
      rw [List.find?_cons_of_neg _ (by simp [hp])]
      exact hr

theorem getAssoc_map_overwrite_ne (i j : Nat) (r : EvaluationResult)
    (hne : j ≠ i) :
    ∀ (m : List (Nat × EvaluationResult)),
    getAssoc (m.map (fun p => if p.1 == i then (i, r) else p)) j
      = getAssoc m j := by
  intro m
  induction m with
  | nil => rfl
  | cons p rest ih =>
    rw [List.map_cons]
    by_cases hp : (p.1 == i) = true
    · rw [if_pos hp]
      have hpi : p.1 = i := by simpa using hp
      have hij : ((i : Nat) == j) = false :=
        beq_eq_false_iff_ne.mpr (fun hh => hne hh.symm)
      have hpj : (p.1 == j) = false := by rw [hpi]; exact hij
      unfold getAssoc at ih ⊢
      rw [List.find?_cons_of_neg _ (by simpa using hij),
        List.find?_cons_of_neg _ (by simpa using hpj)]
      exact ih
    · rw [if_neg hp]
      by_cases hpj : (p.1 == j) = true
      · unfold getAssoc
        rw [List.find?_cons_of_pos _ (by simpa using hpj),
          List.find?_cons_of_pos _ (by simpa using hpj)]
      · have hpj' : (p.1 == j) = false := by
          revert hpj; cases (p.1 == j) <;> simp
        unfold getAssoc at ih ⊢
        rw [List.find?_cons_of_neg _ (by simpa using hpj'),
          List.find?_cons_of_neg _ (by simpa using hpj')]
        exact ih

theorem getAssoc_setAssoc_self (m : List (Nat × EvaluationResult)) (i : Nat)
    (r : EvaluationResult) : getAssoc (setAssoc m i r) i = some r := by
  unfold setAssoc
  by_cases h : m.any (fun p => p.1 == i) = true
  · rw [if_pos h]
    exact getAssoc_map_overwrite i r m h
  · rw [if_neg h]
    have h' : m.any (fun p => p.1 == i) = false := by
      revert h; cases m.any (fun p => p.1 == i) <;> simp
    have hnone : m.find? (fun p => p.1 == i) = none := by
      rw [List.find?_eq_none]
      intro x hx
      rw [List.any_eq_false] at h'
      exact h' x hx
    unfold getAssoc
    rw [List.find?_append, hnone]
    simp

theorem getAssoc_setAssoc_ne (m : List (Nat × EvaluationResult)) (i j : Nat)
    (r : EvaluationResult) (hne : j ≠ i) :
    getAssoc (setAssoc m i r) j = getAssoc m j := by
  unfold setAssoc
  by_cases h : m.any (fun p => p.1 == i) = true
  · rw [if_pos h]
    exact getAssoc_map_overwrite_ne i j r hne m
  · rw [if_neg h]
    have hij : ((i : Nat) == j) = false :=
      beq_eq_false_iff_ne.mpr (fun hh => hne hh.symm)
    unfold getAssoc
    rw [List.find?_append]
    cases hfm : m.find? (fun p => p.1 == j) with
    | some v => rfl
    | none =>
      rw [List.find?_cons_of_neg _ (by simpa using hij)]
      rfl

/-- C10: a denied appeal (adjudicated result that does not pass)
replaces only the stored displayed result for the targeted item; the
Mastery Record and the Retry Queue are left unchanged — no retry-queue
entry is appended and no mastery record is added or removed. -/
theorem c10_denied_appeal_frame (src : PracticeSource) (st : AppState)
    (char : String) (index : Option Nat) (newResult : EvaluationResult)
    (hfail : ¬(newResult.isCorrect = true ∧ (80 : Int) ≤ newResult.score)) :
    ((handleAppealSubmit src st char index newResult).masteredChars
        = st.masteredChars)
    ∧ ((handleAppealSubmit src st char index newResult).retryQueue
        = st.retryQueue)
    ∧ (index = none → st.result.isSome = true →
        (handleAppealSubmit src st char index newResult).result
            = some newResult
        ∧ (handleAppealSubmit src st char index newResult).sentenceResults
            = st.sentenceResults)
    ∧ (∀ i, index = some i → (getAssoc st.sentenceResults i).isSome = true →
        getAssoc (handleAppealSubmit src st char index newResult).sentenceResults
            i = some newResult
        ∧ (∀ j, j ≠ i →
            getAssoc
                (handleAppealSubmit src st char index newResult).sentenceResults
                j
              = getAssoc st.sentenceResults j)
        ∧ (handleAppealSubmit src st char index newResult).result
            = st.result) := by
  cases index with
  | none =>
    cases hres : st.result with
    | none =>
      have hid : handleAppealSubmit src st char none newResult = st := by
        unfold handleAppealSubmit
        rw [hres]
        rfl
      rw [hid]
      refine ⟨rfl, rfl, ?_, ?_⟩
      · intro _ hsome
        simp at hsome
      · intro i hi
        exact absurd hi (by simp)
    | some orig =>
      have hid : handleAppealSubmit src st char none newResult
          = { st with result := some newResult } := by
        unfold handleAppealSubmit
        rw [hres, if_neg hfail]
        rfl
      rw [hid]
      refine ⟨rfl, rfl, ?_, ?_⟩
      · intro _ _
        exact ⟨rfl, rfl⟩
      · intro i hi
        exact absurd hi (by simp)
  | some i0 =>
    cases hsome : (getAssoc st.sentenceResults i0).isSome with
    | false =>
      have hid : handleAppealSubmit src st char (some i0) newResult = st := by
        unfold handleAppealSubmit
        dsimp only
        rw [hsome]
        rfl
      rw [hid]
      refine ⟨rfl, rfl, ?_, ?_⟩
      · intro hn
        exact absurd hn (by simp)
      · intro i hi hs
        injection hi with hi
        subst hi
        rw [hsome] at hs
        simp at hs
    | true =>
      have hid : handleAppealSubmit src st char (some i0) newResult
          = { st with
              sentenceResults := setAssoc st.sentenceResults i0 newResult } := by
        unfold handleAppealSubmit
        dsimp only
        rw [hsome, if_neg hfail]
        rfl
      rw [hid]
      refine ⟨rfl, rfl, ?_, ?_⟩
      · intro hn
        exact absurd hn (by simp)
      · intro i hi _
        injection hi with hi
        subst hi
        exact ⟨getAssoc_setAssoc_self _ _ _,
          fun j hj => getAssoc_setAssoc_ne _ _ _ _ hj, rfl⟩

/-- Witness for C10 at a concrete input: a denied single-item appeal
(score 40) leaves the mastery record of a state that had 谢 queued for
retry unchanged. -/
theorem c10_denied_appeal_frame_witness :
    (handleAppealSubmit (PracticeSource.hsk 1)
        { emptyApp with result := some fail40, retryQueue := [xieData] }
        "谢" none ⟨false, 40, "Still incorrect"⟩).retryQueue
      = [xieData] :=
  (c10_denied_appeal_frame (PracticeSource.hsk 1)
    { emptyApp with result := some fail40, retryQueue := [xieData] }
    "谢" none ⟨false, 40, "Still incorrect"⟩ (by decide)).2.1

theorem shouldPickFromRetry_iff (queue : List HanziData) (r : ℚ) :
    shouldPickFromRetry queue r = true
      ↔ (queue ≠ [] ∧ (r < 2 / 5 ∨ 5 < queue.length)) := by
  simp [shouldPickFromRetry, List.length_pos]

theorem loadContentChar_pick (source : PracticeSource)
    (mastered : List (String × Int)) (cd : HanziData) (rest : List HanziData)
    (r1 r2 : ℚ) (h : shouldPickFromRetry (cd :: rest) r1 = true) :
    loadContentChar source mastered (cd :: rest) r1 r2
      = LoadChoice.retryHead cd := by
  unfold loadContentChar
  rw [h]

theorem loadContentChar_fresh (source : PracticeSource)
    (mastered : List (String × Int)) (queue : List HanziData) (r1 r2 : ℚ)
    (h : shouldPickFromRetry queue r1 = false) :
    loadContentChar source mastered queue r1 r2
      = (match source with
         | .hsk level => LoadChoice.fetchHsk level
         | .palette p =>
             if p.chars.length = 0 then LoadChoice.paletteEmpty
             else
               LoadChoice.fetchPaletteChar
                 ((palettePool mastered p.chars).getD
                   (⌊r2 * ((palettePool mastered p.chars).length : ℚ)⌋).toNat
                   "")) := by
  unfold loadContentChar
  rw [h]
  cases queue <;> rfl

theorem floor_mul_toNat_lt (r : ℚ) (n : ℕ) (h0 : 0 ≤ r) (h1 : r < 1)
    (hn : 0 < n) : (⌊r * (n : ℚ)⌋).toNat < n := by
  have hnq : (0 : ℚ) < (n : ℚ) := by exact_mod_cast hn
  have hlt : r * (n : ℚ) < (n : ℚ) := by
    calc r * (n : ℚ) < 1 * (n : ℚ) := mul_lt_mul_of_pos_right h1 hnq
      _ = (n : ℚ) := one_mul _
  have hfl : ⌊r * (n : ℚ)⌋ < (n : Int) := by
    rw [Int.floor_lt]
    exact_mod_cast hlt
  have hf0 : 0 ≤ ⌊r * (n : ℚ)⌋ := Int.floor_nonneg.mpr (mul_nonneg h0 hnq.le)
  omega

theorem floor_mul_toNat_eq_iff (r : ℚ) (n k : ℕ) (h0 : 0 ≤ r)
    (hn : 0 < n) :
    ((⌊r * (n : ℚ)⌋).toNat = k
      ↔ ((k : ℚ) / n ≤ r ∧ r < ((k : ℚ) + 1) / n)) := by
  have hnq : (0 : ℚ) < (n : ℚ) := by exact_mod_cast hn
  have hf0 : 0 ≤ ⌊r * (n : ℚ)⌋ := Int.floor_nonneg.mpr (mul_nonneg h0 hnq.le)
  constructor
  · intro hk
    have hfe : ⌊r * (n : ℚ)⌋ = (k : Int) := by omega
    rw [Int.floor_eq_iff] at hfe
    obtain ⟨ha, hb⟩ := hfe
    constructor
    · rw [div_le_iff₀ hnq]
      exact_mod_cast ha
    · rw [lt_div_iff₀ hnq]
      push_cast at hb ⊢
      linarith
  · rintro ⟨ha, hb⟩
    have ha' : (k : ℚ) ≤ r * n := by
      rw [div_le_iff₀ hnq] at ha
      exact ha
    have hb' : r * n < (k : ℚ) + 1 := by
      rw [lt_div_iff₀ hnq] at hb
      linarith
    have hfe : ⌊r * (n : ℚ)⌋ = (k : Int) := by
      rw [Int.floor_eq_iff]
      constructor <;> push_cast <;> linarith
    omega

/-- C7: on entering Loading in single-character scope, the head of the
retry queue is selected exactly when the queue is non-empty and
(`random() < 0.4` or the queue length exceeds 5); otherwise fresh
content is fetched from the active source, and for a custom palette the
glyph is `pool[⌊r2·|pool|⌋]` where the pool is the not-yet-mastered
glyphs, or all palette glyphs when every one is mastered; the selection
index is always in range and equals `k` exactly when `r2` lies in the
length-`1/|pool|` interval `[k/|pool|, (k+1)/|pool|)`, so a uniform
draw selects uniformly. -/
theorem c7_content_selection (source : PracticeSource)
    (mastered : List (String × Int)) (queue : List HanziData) (r1 r2 : ℚ)
    (h0 : 0 ≤ r2) (h1 : r2 < 1) :
    ((∃ cd, loadContentChar source mastered queue r1 r2
        = LoadChoice.retryHead cd)
      ↔ (queue ≠ [] ∧ (r1 < 2 / 5 ∨ 5 < queue.length)))
    ∧ (∀ cd rest, queue = cd :: rest → (r1 < 2 / 5 ∨ 5 < queue.length) →
        loadContentChar source mastered queue r1 r2
          = LoadChoice.retryHead cd)
    ∧ (∀ level : Int, shouldPickFromRetry queue r1 = false →
        source = PracticeSource.hsk level →
        loadContentChar source mastered queue r1 r2
          = LoadChoice.fetchHsk level)
    ∧ (∀ p : CustomPalette, shouldPickFromRetry queue r1 = false →
        source = PracticeSource.palette p → p.chars ≠ [] →
        (⌊r2 * ((palettePool mastered p.chars).length : ℚ)⌋).toNat
            < (palettePool mastered p.chars).length
        ∧ loadContentChar source mastered queue r1 r2
            = LoadChoice.fetchPaletteChar
                ((palettePool mastered p.chars).getD
                  (⌊r2 * ((palettePool mastered p.chars).length : ℚ)⌋).toNat
                  ""))
    ∧ (∀ chars : List String,
        (chars.filter (fun c => !(masteredHas mastered c)) ≠ [] →
          palettePool mastered chars
            = chars.filter (fun c => !(masteredHas mastered c)))
        ∧ (chars.filter (fun c => !(masteredHas mastered c)) = [] →
          palettePool mastered chars = chars))
    ∧ (∀ n k : ℕ, 0 < n →
        ((⌊r2 * (n : ℚ)⌋).toNat = k
          ↔ ((k : ℚ) / n ≤ r2 ∧ r2 < ((k : ℚ) + 1) / n))) := by
  refine ⟨?_, ?_, ?_, ?_, ?_, ?_⟩
  · constructor
    · rintro ⟨cd, hcd⟩
      by_cases hsp : shouldPickFromRetry queue r1 = true
      · exact (shouldPickFromRetry_iff queue r1).mp hsp
      · have hf : shouldPickFromRetry queue r1 = false := by
          revert hsp; cases shouldPickFromRetry queue r1 <;> simp
        rw [loadContentChar_fresh source mastered queue r1 r2 hf] at hcd
        cases source with
        | hsk level => exact absurd hcd (by simp)
        | palette p =>
          dsimp only at hcd
          by_cases hpc : p.chars.length = 0
          · rw [if_pos hpc] at hcd
            exact absurd hcd (by simp)
          · rw [if_neg hpc] at hcd
            exact absurd hcd (by simp)
    · rintro ⟨hne, hcond⟩
      cases queue with
      | nil => exact absurd rfl hne
      | cons cd rest =>
        exact ⟨cd, loadContentChar_pick source mastered cd rest r1 r2
          ((shouldPickFromRetry_iff _ _).mpr ⟨by simp, hcond⟩)⟩
  · intro cd rest hq hcond
    subst hq
    exact loadContentChar_pick source mastered cd rest r1 r2
      ((shouldPickFromRetry_iff _ _).mpr ⟨by simp, hcond⟩)
  · intro level hf hsrc
    subst hsrc
    rw [loadContentChar_fresh _ mastered queue r1 r2 hf]
  · intro p hf hsrc hpc
    subst hsrc
    have hpool : palettePool mastered p.chars ≠ [] := by
      unfold palettePool
      dsimp only
      by_cases hu :
          0 < (p.chars.filter (fun c => !(masteredHas mastered c))).length
      · rw [if_pos hu]
        exact List.length_pos.mp hu
      · rw [if_neg hu]
        exact hpc
    have hlen : 0 < (palettePool mastered p.chars).length :=
      List.length_pos.mpr hpool
    refine ⟨floor_mul_toNat_lt r2 _ h0 h1 hlen, ?_⟩
    rw [loadContentChar_fresh _ mastered queue r1 r2 hf]
    dsimp only
    rw [if_neg (fun hzero => hpc (List.length_eq_zero.mp hzero))]
  · intro chars
    constructor
    · intro hne
      unfold palettePool
      dsimp only
      rw [if_pos (List.length_pos.mpr hne)]
    · intro heq
      unfold palettePool
      dsimp only
      rw [heq]
      rfl
  · intro n k hn
    exact floor_mul_toNat_eq_iff r2 n k h0 hn

/-- Witness for C7 at a concrete input: empty retry queue and HSK-1
source select a fresh HSK-1 fetch. -/
theorem c7_content_selection_witness :
    loadContentChar (PracticeSource.hsk 1) [] [] 0 0
      = LoadChoice.fetchHsk 1 :=
  (c7_content_selection (PracticeSource.hsk 1) [] [] 0 0 (le_refl 0)
    one_pos).2.2.1 1 rfl rfl

/-- C8: the wrapper `retryOperation` propagates a non-rate-limit/non-overload
failure immediately with no waits; the waits it does perform are
`delay·2^0, delay·2^1, …` (doubling) and never exceed the retry
budget; every wait is caused by a rate-limit/overload failure of the
corresponding attempt; when the retried grading call ultimately yields
no parsed result, `validateHandwriting` returns the fixed zero-score
`isCorrect = false` fallback with its explanatory message rather than
throwing; and when the retried content fetch ultimately yields no
parsed character, `fetchRandomCharacter` returns an item of the
built-in offline sample data. -/
theorem c8_retry_backoff_and_fallback :
    (∀ (op : Nat → Except ApiError (Option EvaluationResult))
        (attempt retries delay : Nat) (e : ApiError),
      op attempt = .error e →
      (isRateLimit e || isServerOverload e) = false →
      retryOperation op attempt retries delay = (.error e, []))
    ∧ (∀ (op : Nat → Except ApiError (Option EvaluationResult))
        (retries attempt delay : Nat),
      ∃ k, k ≤ retries ∧
        (retryOperation op attempt retries delay).snd
          = (List.range k).map (fun i => delay * 2 ^ i))
    ∧ (∀ (op : Nat → Except ApiError (Option EvaluationResult))
        (retries attempt delay i : Nat),
      i < (retryOperation op attempt retries delay).snd.length →
      ∃ e, op (attempt + i) = .error e
        ∧ (isRateLimit e || isServerOverload e) = true)
    ∧ (∀ (op : Nat → Except ApiError (Option EvaluationResult)),
      (∀ r, (retryOperation op 0 3 1000).fst ≠ .ok (some r)) →
      validateHandwriting op = quotaFallback)
    ∧ (∀ (op : Nat → Except ApiError (Option HanziData)) (level : Int)
        (r : ℚ),
      0 ≤ r → r < 1 →
      (∀ d, (retryOperation op 0 3 1000).fst ≠ .ok (some d)) →
      fetchRandomCharacter op level r ∈ offlineData level) := by
  refine ⟨?_, ?_, ?_, ?_, ?_⟩
  · intro op attempt retries delay e hop hclass
    unfold retryOperation
    rw [hop]
    cases retries with
    | zero => rfl
    | succ n =>
      dsimp only
      rw [if_neg (by simp [hclass])]
  · intro op retries
    induction retries with
    | zero =>
      intro attempt delay
      refine ⟨0, le_refl 0, ?_⟩
      unfold retryOperation
      cases hop : op attempt with
      | ok a => rfl
      | error e => rfl
    | succ n ih =>
      intro attempt delay
      unfold retryOperation
      cases hop : op attempt with
      | ok a => exact ⟨0, Nat.zero_le _, rfl⟩
      | error e =>
        dsimp only
        by_cases hcl : (isRateLimit e || isServerOverload e) = true
        · rw [if_pos hcl]
          obtain ⟨k, hk, he⟩ := ih (attempt + 1) (delay * 2)
          refine ⟨k + 1, by omega, ?_⟩
          dsimp only
          rw [he, List.range_succ_eq_map, List.map_cons, List.map_map]
          congr 1
          · simp
          · refine List.map_congr_left (fun i _ => ?_)
            show delay * 2 * 2 ^ i = delay * 2 ^ (i + 1)
            rw [pow_succ]
            ring
        · have hcl' : (isRateLimit e || isServerOverload e) = false := by
            revert hcl; cases (isRateLimit e || isServerOverload e) <;> simp
          rw [if_neg (by simp [hcl'])]
          exact ⟨0, Nat.zero_le _, rfl⟩
  · intro op retries
    induction retries with
    | zero =>
      intro attempt delay i hi
      unfold retryOperation at hi
      cases hop : op attempt with
      | ok a => rw [hop] at hi; simp at hi
      | error e => rw [hop] at hi; simp at hi
    | succ n ih =>
      intro attempt delay i hi
      unfold retryOperation at hi
      cases hop : op attempt with
      | ok a => rw [hop] at hi; simp at hi
      | error e =>
        rw [hop] at hi
        dsimp only at hi
        by_cases hcl : (isRateLimit e || isServerOverload e) = true
        · rw [if_pos hcl] at hi
          dsimp only at hi
          cases i with
          | zero =>
            refine ⟨e, ?_, hcl⟩
            rw [Nat.add_zero]
            exact hop
          | succ j =>
            have hj : j < (retryOperation op (attempt + 1) n
                (delay * 2)).snd.length := by
              simp at hi
              omega
            obtain ⟨e', he', hcl'⟩ := ih (attempt + 1) (delay * 2) j hj
            refine ⟨e', ?_, hcl'⟩
            rw [show attempt + (j + 1) = (attempt + 1) + j by omega]
            exact he'
        · have hcl' : (isRateLimit e || isServerOverload e) = false := by
            revert hcl; cases (isRateLimit e || isServerOverload e) <;> simp
          rw [if_neg (by simp [hcl'])] at hi
          simp at hi
  · intro op hne
    unfold validateHandwriting
    cases hres : (retryOperation op 0 3 1000).fst with
    | ok v =>
      cases v with
      | some r => exact absurd hres (hne r)
      | none => rfl
    | error e => rfl
  · intro op level r hr0 hr1 hne
    have hlen : 0 < (offlineData level).length := by
      unfold offlineData
      split_ifs <;> simp
    have hidx := floor_mul_toNat_lt r _ hr0 hr1 hlen
    have hmem : getRandomOfflineChar level r ∈ offlineData level := by
      unfold getRandomOfflineChar
      dsimp only
      rw [List.getD_eq_getElem _ _ hidx]
      exact List.getElem_mem _
    unfold fetchRandomCharacter
    cases hres : (retryOperation op 0 3 1000).fst with
    | ok v =>
      cases v with
      | some d => exact absurd hres (hne d)
      | none => exact hmem
    | error e => exact hmem

/-- Witness for C8 at a concrete input: an operation that always fails
with HTTP 503 exhausts the retry budget and `validateHandwriting`
returns the zero-score fallback. -/
theorem c8_retry_backoff_and_fallback_witness :
    validateHandwriting opAlways503 = quotaFallback := by
  refine c8_retry_backoff_and_fallback.2.2.2.1 opAlways503 ?_
  intro r hr
  have hfst : (retryOperation opAlways503 0 3 1000).fst
      = Except.error ⟨some 503, none, "Service Unavailable", none, none⟩ := by
    rfl
  rw [hfst] at hr
  exact Except.noConfusion hr

end Caihanzi
